import Mathlib

/-!
Verification of the reverse-engineering agent's orchestration core against
its natural-language specification.  The Python source is shallowly embedded:
pure control flow is translated to Lean functions, external effects (the
reasoning oracle, tool subprocess invocations, filesystem probes) become
explicit function parameters, and Python `dict.get` defaulting becomes
`Option.getD`.  Floating-point confidence levels are modelled as rationals;
none of the verified claims depends on float rounding.
-/

namespace RevAgent

/-! ## Resilient oracle call layer (src/core/llm.py, invoke_llm_with_retry)

The chain is modelled as a function from the attempt counter to an outcome:
`oracle n` is the result of the (n+1)-th `chain.invoke(inputs)` call.  The
classifier `rl e` is the disjunction of the two rate-limit tests in the
source (`"RateLimitError" in str(type(e)) and "groq" in _provider`, or
`"ResourceExhausted" in str(type(e)) or "429" in str(e)`), evaluated on the
raised exception; `time.sleep` calls are irrelevant to the results and are
dropped.  A Python function body that falls off the end of the `while` loop
returns `None`; that outcome is modelled as `RetryResult.noneReturned`. -/

inductive LLMOutcome (α ε : Type) where
  | success (v : α)
  | failure (e : ε)
deriving DecidableEq

/-- Possible results of `invoke_llm_with_retry`: the returned payload, a
re-raised exception, or Python's implicit `None` return when the `while`
loop exits by its condition. -/
inductive RetryResult (α ε : Type) where
  | payload (v : α)
  | raised (e : ε)
  | noneReturned
deriving DecidableEq

/-- The `while attempt < max_retries` loop of `invoke_llm_with_retry`,
together with a count of how many times `chain.invoke` ran.  `fuel` is an
upper bound on the remaining loop iterations (each iteration increases
`attempt` by exactly one, so `max_retries` initial fuel is exact); when
`fuel` hits zero we also have `attempt ≥ max_retries`, i.e. the loop exit. -/
def retryGo (oracle : Nat → LLMOutcome α ε) (rl : ε → Bool) (max_retries : Nat) :
    Nat → Nat → RetryResult α ε × Nat
  | 0, _ => (.noneReturned, 0)
  | fuel + 1, attempt =>
    if attempt < max_retries then
      match oracle attempt with
      | .success v => (.payload v, 1)
      | .failure e =>
        if rl e then
          let r := retryGo oracle rl max_retries fuel (attempt + 1)
          (r.1, r.2 + 1)
        else if max_retries ≤ attempt + 1 then
          (.raised e, 1)
        else
          let r := retryGo oracle rl max_retries fuel (attempt + 1)
          (r.1, r.2 + 1)
    else (.noneReturned, 0)

/-- `invoke_llm_with_retry(chain, inputs, max_retries)`: result and total
number of `chain.invoke` calls made. -/
def invoke_llm_with_retry (oracle : Nat → LLMOutcome α ε) (rl : ε → Bool)
    (max_retries : Nat := 3) : RetryResult α ε × Nat :=
  retryGo oracle rl max_retries max_retries 0

/-! ## Shared analysis state (src/core/state.py)

Only the slice of `AgentState` read or written by the verified agents is
embedded.  A missing `current_plan` key and an empty list are
indistinguishable to the code under verification (both are falsy and
`state.get("current_plan", [])` yields `[]`), so the plan is a plain list;
`execution_log` keeps the missing/None case, and `target.binary_path` may be
absent.  Float fields are modelled as rationals. -/

inductive StepStatus where
  | pending
  | completed
  | failed
deriving DecidableEq

structure PlanStep where
  step_id : Int
  action : String
  tool : String
  status : StepStatus
  result_ref : Option String
deriving DecidableEq

structure Confidence where
  understanding_level : Rat
  unanswered_questions : List String
deriving DecidableEq

structure Termination where
  satisfied : Bool
  reason : Option String
deriving DecidableEq

structure Hypothesis where
  id : String
  claim : String
  confidence : Rat
  evidence : List String
  status : String
deriving DecidableEq

/-- The `input` dict recorded in an `ExecutionLogEntry`: `{}` on the
missing-binary-path branch, `{"binary_path": bp}` for direct tools and
unsupported names, and the translated shapes for gdb / run_binary. -/
inductive ToolInput where
  | emptyInput
  | pathOnly (binary_path : String)
  | gdbInput (binary_path : String) (commands : List String)
  | runInput (binary_path : String) (cmd_args : List String) (stdin_data : Option String)
deriving DecidableEq

structure ExecutionLogEntry where
  step_id : Int
  tool : String
  input : ToolInput
  output : Option String
  error : Option String
deriving DecidableEq

structure AgentState where
  binary_path : Option String
  goal_primary_objective : Option String
  current_plan : List PlanStep
  execution_log : Option (List ExecutionLogEntry)
  hypotheses : List Hypothesis
  confidence : Option Confidence
  termination : Option Termination
deriving DecidableEq

/-! ## Critic / re-planner agent (src/agents/critic_agent.py)

The oracle call (prompt formatting, `invoke_llm_with_retry`, JSON parsing)
is an external effect: the agent is parameterised over its outcome, an
exception (`Except.error`, caught by the `except` block) or a parsed JSON
response.  The nested `response.get("confidence_update", {})` /
`response.get("termination", {})` dictionaries are flattened into optional
fields, which is observationally identical because a missing dict and an
empty dict produce the same `.get` results. -/

structure NewStepData where
  action : Option String
  tool : Option String
deriving DecidableEq

structure CriticResponse where
  understanding_level : Option Rat
  unanswered_questions : Option (List String)
  satisfied : Option Bool
  reason : Option String
  new_steps : List NewStepData
deriving DecidableEq

/-- `max([s["step_id"] for s in plan]) if plan else 0` (line 82). -/
def current_max_id (plan : List PlanStep) : Int :=
  match plan.map (fun s => s.step_id) with
  | [] => 0
  | x :: xs => xs.foldl max x

/-- The `for i, step_data in enumerate(new_steps_data)` loop (lines 83–90),
appending one `PlanStep` per datum with id `current_max_id + i + 1`. -/
def new_steps_go (maxId : Int) : Nat → List NewStepData → List PlanStep
  | _, [] => []
  | i, d :: ds =>
    { step_id := maxId + i + 1
      action := d.action.getD "Unknown action"
      tool := d.tool.getD "unknown"
      status := .pending
      result_ref := none } :: new_steps_go maxId (i + 1) ds

def new_steps_of (plan : List PlanStep) (ds : List NewStepData) : List PlanStep :=
  new_steps_go (current_max_id plan) 0 ds

/-- The spec's `append_steps(plan, new_steps)` operation as the critic
implements it. -/
def append_steps (plan : List PlanStep) (ds : List NewStepData) : List PlanStep :=
  plan ++ new_steps_of plan ds

/-- critic_agent from src/agents/critic_agent.py. -/
def critic_agent (st : AgentState) (oracle : Except Unit CriticResponse) : AgentState :=
  match oracle with
  | .ok r =>
    let conf := st.confidence.getD ⟨0, []⟩
    let newConf : Confidence :=
      ⟨r.understanding_level.getD conf.understanding_level,
        r.unanswered_questions.getD []⟩
    let newTerm : Termination :=
      ⟨r.satisfied.getD false, some (r.reason.getD "No reason provided")⟩
    let st1 := { st with confidence := some newConf, termination := some newTerm }
    if !newTerm.satisfied && !r.new_steps.isEmpty then
      { st1 with current_plan := append_steps st1.current_plan r.new_steps }
    else st1
  | .error _ =>
    if st.current_plan.all (fun s => s.status == .completed) &&
        !st.current_plan.isEmpty then
      let t : Termination := ⟨true, some "All planned steps completed (fallback)."⟩
      { st with termination := some t }
    else
      let t : Termination := ⟨false, some "Plan still in progress (fallback)."⟩
      { st with termination := some t }

/-! ## Planner agent (src/agents/planner_agent.py)

As with the critic, the oracle call is a parameter.  Only the plan list of
the parsed JSON response matters to the embedded behaviour. -/

structure LLMPlanStep where
  step : Option Int
  title : Option String
  description : Option String
  tool : Option String
deriving DecidableEq

structure PlannerResponse where
  plan : List LLMPlanStep
deriving DecidableEq

/-- Python `str.lower()`. -/
def py_lower (s : String) : String :=
  String.mk (s.data.map Char.toLower)

/-- Python `needle in hay` on strings: contiguous-substring containment. -/
def listContainsSub : List Char → List Char → Bool
  | [], needle => needle.isEmpty
  | c :: rest, needle => needle.isPrefixOf (c :: rest) || listContainsSub rest needle

def strContainsSub (hay needle : String) : Bool :=
  listContainsSub hay.toList needle.toList

/-- Tool-name canonicalisation (planner_agent.py lines 69–75). -/
def canonicalize_tool (raw : Option String) : String :=
  let tool := py_lower (raw.getD "unknown")
  if strContainsSub tool "strings" then "strings"
  else if strContainsSub tool "file" then "file"
  else if strContainsSub tool "hexdump" then "hexdump"
  else if strContainsSub tool "run" then "run_binary"
  else if strContainsSub tool "gdb" then "gdb"
  else tool

/-- One iteration of the `for i, step in enumerate(llm_plan)` loop
(planner_agent.py lines 68–85). -/
def build_plan_step (i : Nat) (s : LLMPlanStep) : PlanStep :=
  { step_id := s.step.getD ((i : Int) + 1)
    action := s.description.getD (s.title.getD "Unknown Action")
    tool := canonicalize_tool s.tool
    status := .pending
    result_ref := none }

def build_new_plan_go : Nat → List LLMPlanStep → List PlanStep
  | _, [] => []
  | i, s :: rest => build_plan_step i s :: build_new_plan_go (i + 1) rest

def build_new_plan (resp : List LLMPlanStep) : List PlanStep :=
  build_new_plan_go 0 resp

/-- Python `f"...{x}..."` on an optional value: `None` prints as "None". -/
def pyStrOfOption (o : Option String) : String :=
  match o with
  | none => "None"
  | some s => s

/-- planner_agent from src/agents/planner_agent.py. -/
def planner_agent (st : AgentState) (oracle : Except Unit PlannerResponse) : AgentState :=
  if !st.current_plan.isEmpty &&
      st.current_plan.any (fun s => s.status != StepStatus.completed) then st
  else
    match oracle with
    | .ok resp =>
      let st1 := { st with current_plan := build_new_plan resp.plan }
      if st1.hypotheses.isEmpty then
        let h : Hypothesis :=
          ⟨"h1",
            "The goal '" ++ pyStrOfOption st.goal_primary_objective ++
              "' can be achieved by following the generated plan.",
            (1 : Rat) / 2, [], "active"⟩
        { st1 with hypotheses := [h] }
      else st1
    | .error _ =>
      if st.current_plan.isEmpty then
        let s : PlanStep := ⟨1, "Manual inspection", "file", .pending, none⟩
        { st with current_plan := [s] }
      else st

/-! ## Executor agent (src/agents/executor_agent.py)

The body of the `try` block (LLM argument translation for gdb / run_binary
and the actual tool invocation) is an external effect, parameterised as
`tryRun`: for a given tool name it yields either the raised exception's
message together with the `tool_input` dict at the moment of the raise, or
the final `tool_input` and the tool's output string.  Step selection, the
missing-binary-path early return, the unsupported-tool branch, the
unconditional log append and the status update are embedded from the
source. -/

def isPending (s : PlanStep) : Bool :=
  s.status == .pending

/-- `next((step for step in plan if step["status"] == "pending"), None)`. -/
def next_pending (plan : List PlanStep) : Option PlanStep :=
  plan.find? isPending

def tool_map_names : List String :=
  ["file", "strings", "hexdump", "gdb", "run_binary"]

/-- In-place mutation of the selected (first pending) step's dict. -/
def mark_first_pending (plan : List PlanStep) (f : PlanStep → PlanStep) : List PlanStep :=
  match plan with
  | [] => []
  | s :: rest => if isPending s then f s :: rest else s :: mark_first_pending rest f

/-- Position of the first pending step. -/
def first_pending_idx : List PlanStep → Nat
  | [] => 0
  | s :: rest => if isPending s then 0 else first_pending_idx rest + 1

/-- The `(tool_input, output, error)` triple after the dispatch section
(executor_agent.py lines 48–122). -/
def exec_attempt (bp : String) (toolName : String)
    (tryRun : String → Except (String × ToolInput) (ToolInput × String)) :
    ToolInput × Option String × Option String :=
  if toolName ∈ tool_map_names then
    match tryRun toolName with
    | .ok (inp, out) => (inp, some out, none)
    | .error (msg, inp) => (inp, none, some ("Tool execution failed: " ++ msg))
  else (.pathOnly bp, none, some ("Unsupported tool: " ++ toolName))

/-- executor_agent from src/agents/executor_agent.py. -/
def executor_agent (st : AgentState)
    (tryRun : String → Except (String × ToolInput) (ToolInput × String)) : AgentState :=
  match next_pending st.current_plan with
  | none => st
  | some step =>
    match st.binary_path with
    | none =>
      let entry : ExecutionLogEntry :=
        ⟨step.step_id, step.tool, .emptyInput, none,
          some "Error: No binary path provided in target info."⟩
      let newLog := st.execution_log.getD [] ++ [entry]
      let newPlan :=
        mark_first_pending st.current_plan (fun s => { s with status := .failed })
      { st with execution_log := some newLog, current_plan := newPlan }
    | some bp =>
      let res := exec_attempt bp step.tool tryRun
      let entry : ExecutionLogEntry := ⟨step.step_id, step.tool, res.1, res.2.1, res.2.2⟩
      let newLog := st.execution_log.getD [] ++ [entry]
      let newStatus := if res.2.2.isSome then StepStatus.failed else StepStatus.completed
      let ref := some ("log_" ++ toString (newLog.length - 1))
      let newPlan :=
        mark_first_pending st.current_plan
          (fun s => { s with status := newStatus, result_ref := ref })
      { st with execution_log := some newLog, current_plan := newPlan }

/-! ## Interactive process execution adapter (src/tools/dynamic/run_binary.py)

The adapter is embedded up to and including the write to the child's stdin
(lines 22–51 of the source): the path checks, the payload size cap, the
newline normalization, the `pexpect.spawn`, and the `child.send`.  The
filesystem probes `os.path.isabs(binary_path)` and
`os.path.isfile ∧ os.access(..., X_OK)` are external facts passed in as
booleans.  Everything after the send (EOF/timeout handling and report
formatting) affects none of the verified claims.  Payloads are lists of
characters, matching Python `len` on `str`. -/

/-- Python truthiness of the optional `stdin_data` argument: `None` and the
empty string are both falsy, so `if stdin_data:` skips its block for both. -/
def pyTruthy (o : Option (List Char)) : Bool :=
  match o with
  | none => false
  | some l => !l.isEmpty

/-- Python `stdin_data.endswith("\n")`: non-empty and last character `'\n'`. -/
def endswith_nl : List Char → Bool
  | [] => false
  | [c] => c == '\n'
  | _ :: rest => endswith_nl rest

/-- Lines 36–37 of run_binary.py: append a trailing newline when absent. -/
def normalize_stdin (l : List Char) : List Char :=
  if endswith_nl l then l else l ++ ['\n']

/-- Observable outcome of a run_binary_tool call through the stdin write:
either an early `return` of an error report before any process exists, or a
spawn with `sent` recording exactly what `child.send` wrote (`none` when the
send is skipped). -/
inductive RunBinaryStep where
  | errNotAbsolute
  | errNotExecutable
  | errStdinTooLarge
  | spawned (sent : Option (List Char))
deriving DecidableEq

/-- run_binary_tool from src/tools/dynamic/run_binary.py, through the
`child.send(stdin_data)` point. -/
def run_binary_tool (isAbsolute isExecutableFile : Bool)
    (stdin_data : Option (List Char)) : RunBinaryStep :=
  if !isAbsolute then .errNotAbsolute
  else if !isExecutableFile then .errNotExecutable
  else if pyTruthy stdin_data then
    let l := stdin_data.getD []
    if 4096 < l.length then .errStdinTooLarge
    else .spawned (some (normalize_stdin l))
  else .spawned none

/-- Whether the call reached `pexpect.spawn`. -/
def spawnsProcess : RunBinaryStep → Bool
  | .spawned _ => true
  | _ => false

/-! ## Concrete states used by counterexamples and witnesses -/

/-- A state whose plan is all-terminal but contains a failed step. -/
def stC3 : AgentState :=
  { binary_path := some "/bin/demo"
    goal_primary_objective := some "find the secret"
    current_plan := [⟨1, "inspect", "file", .failed, none⟩]
    execution_log := none
    hypotheses := []
    confidence := none
    termination := none }

/-- A planner response whose generated plan differs from stC3's plan. -/
def respC3 : PlannerResponse :=
  ⟨[⟨none, some "Probe", some "Inspect the file type", some "file"⟩]⟩

/-- A state whose plan steps are all completed. -/
def stAllDone : AgentState :=
  { binary_path := some "/bin/demo"
    goal_primary_objective := some "find the secret"
    current_plan := [⟨1, "inspect", "file", .completed, none⟩]
    execution_log := none
    hypotheses := []
    confidence := none
    termination := none }

/-- A state carrying a non-trivial prior Confidence record and a pending
step, used to exercise the critic's oracle-failure fallback. -/
def stC4 : AgentState :=
  { binary_path := some "/bin/demo"
    goal_primary_objective := some "find the secret"
    current_plan := [⟨1, "probe", "file", .pending, none⟩]
    execution_log := none
    hypotheses := []
    confidence := some ⟨(1 : Rat) / 2, ["what does the binary check?"]⟩
    termination := none }

/-- A state with one pending step and a binary path, for the executor. -/
def stC6 : AgentState :=
  { binary_path := some "/bin/demo"
    goal_primary_objective := none
    current_plan := [⟨1, "inspect", "file", .pending, none⟩]
    execution_log := none
    hypotheses := []
    confidence := none
    termination := none }

/-- A tool dispatch outcome that succeeds with a file-probe report. -/
def tryRunC6 : String → Except (String × ToolInput) (ToolInput × String) :=
  fun _ => .ok (.pathOnly "/bin/demo", "ELF 64-bit LSB executable")

/-! ## Theorems: resilient oracle call layer (claims C1, C2) -/

/-- On an always-failing oracle the loop runs `fuel` more iterations from
`attempt = max_retries - fuel`, and the outcome is decided by the
classification of the failure of the last attempt. -/
theorem retryGo_allFail (oracle : Nat → LLMOutcome α ε) (rl : ε → Bool)
    (m : Nat) (err : Nat → ε) (hf : ∀ n, oracle n = .failure (err n)) :
    ∀ fuel attempt, attempt + fuel = m → 1 ≤ fuel →
      retryGo oracle rl m fuel attempt =
        ((if rl (err (m - 1)) then .noneReturned else .raised (err (m - 1))), fuel) := by
  intro fuel
  induction fuel with
  | zero => intro attempt _ h1; omega
  | succ k ih =>
    intro attempt hsum _
    have hlt : attempt < m := by omega
    rcases Nat.eq_zero_or_pos k with hk | hk
    · subst hk
      have hatt : attempt = m - 1 := by omega
      subst hatt
      have h2 : m ≤ m - 1 + 1 := by omega
      simp only [retryGo]
      rw [if_pos hlt, hf]
      by_cases hrl : rl (err (m - 1))
      · simp [hrl]
      · simp [hrl, h2]
    · have hrec : retryGo oracle rl m k (attempt + 1) =
          ((if rl (err (m - 1)) then .noneReturned else .raised (err (m - 1))), k) :=
        ih (attempt + 1) (by omega) hk
      have hnot : ¬ m ≤ attempt + 1 := by omega
      simp only [retryGo]
      rw [if_pos hlt, hf]
      by_cases hrl : rl (err attempt)
      · simp [hrl, hrec]
      · simp [hrl, hnot, hrec]

/-- C1 (amended): with retry bound `m ≥ 1` and every attempt raising a
failure that is not classified as a rate limit, `invoke_llm_with_retry`
makes exactly `m` total `chain.invoke` attempts — the bound counts all
attempts including the first, so `max_retries = 3` yields 3 attempts, not
4 — and then re-raises the last failure. -/
theorem retry_other_failures_bound (oracle : Nat → LLMOutcome α ε) (rl : ε → Bool)
    (m : Nat) (err : Nat → ε) (hm : 1 ≤ m)
    (hf : ∀ n, oracle n = .failure (err n)) (hrl : ∀ n, rl (err n) = false) :
    invoke_llm_with_retry oracle rl m = (.raised (err (m - 1)), m) := by
  have h := retryGo_allFail oracle rl m err hf m 0 (by omega) hm
  simpa [invoke_llm_with_retry, hrl] using h

/-- Witness for C1's amended theorem at the source default `max_retries = 3`:
exactly 3 attempts are made and the failure is re-raised. -/
theorem retry_other_failures_bound_witness :
    invoke_llm_with_retry (fun _ => (LLMOutcome.failure false : LLMOutcome Unit Bool))
      (fun b => b) 3 = (.raised false, 3) :=
  retry_other_failures_bound (fun _ => .failure false) (fun b => b) 3 (fun _ => false)
    (by omega) (fun _ => rfl) (fun _ => rfl)

/-- C1 counterexample: with the layer configured at its default bound of 3
and every attempt failing with a non-rate-limit error, the total number of
attempts is 3, not the 4 claimed. -/
theorem retry_attempt_count_is_three_not_four :
    (invoke_llm_with_retry (fun _ => (LLMOutcome.failure false : LLMOutcome Unit Bool))
      (fun b => b) 3).2 = 3 ∧ (3 : Nat) ≠ 4 := by
  constructor
  · rfl
  · omega

/-- C2 (amended): for every failure sequence that exhausts the retry bound,
the outcome is decided by the classification of the final failing attempt:
a non-rate-limit final failure is re-raised to the caller, but a final
failure classified as a rate-limit signal makes the loop exit by its
condition and the function returns Python `None` — neither a success
payload nor a propagated failure.  In both cases exactly `m` attempts are
made. -/
theorem retry_exhaustion_outcome (oracle : Nat → LLMOutcome α ε) (rl : ε → Bool)
    (m : Nat) (err : Nat → ε) (hm : 1 ≤ m)
    (hf : ∀ n, oracle n = .failure (err n)) :
    invoke_llm_with_retry oracle rl m =
      ((if rl (err (m - 1)) then .noneReturned else .raised (err (m - 1))), m) :=
  retryGo_allFail oracle rl m err hf m 0 (by omega) hm

/-- Witness for C2's amended theorem: three rate-limit-classified failures
under bound 3 yield the implicit-`None` outcome after exactly 3 attempts. -/
theorem retry_exhaustion_outcome_witness :
    invoke_llm_with_retry (fun _ => (LLMOutcome.failure true : LLMOutcome Unit Bool))
      (fun b => b) 3 = (.noneReturned, 3) :=
  retry_exhaustion_outcome (fun _ => .failure true) (fun b => b) 3 (fun _ => true)
    (by omega) (fun _ => rfl)

/-- C2 counterexample: when every failure is classified as a rate-limit
signal and the bound is reached, the layer returns to the caller with
`noneReturned` (Python's implicit `None`) — it neither produces a success
payload nor propagates a failure, contrary to the claim. -/
theorem retry_rate_limit_exhaustion_returns_none :
    (invoke_llm_with_retry (fun _ => (LLMOutcome.failure true : LLMOutcome Unit Bool))
      (fun b => b) 3).1 = .noneReturned := by
  rfl

/-! ## Theorems: process execution adapter (claims C8, C9, C10) -/

/-- A list with a newline appended ends with a newline. -/
theorem endswith_nl_append_nl (l : List Char) : endswith_nl (l ++ ['\n']) = true := by
  induction l with
  | nil => rfl
  | cons c rest ih =>
    cases rest with
    | nil => rfl
    | cons d ds =>
      have hstep : endswith_nl (c :: (d :: ds ++ ['\n'])) = endswith_nl (d :: ds ++ ['\n']) := rfl
      simpa [hstep] using ih

/-- C8: a payload longer than 4096 characters never reaches `pexpect.spawn`
for any call, and whenever the path checks pass the call returns the
stdin-too-large error report. -/
theorem payload_cap (a e : Bool) (l : List Char) (h : 4096 < l.length) :
    spawnsProcess (run_binary_tool a e (some l)) = false ∧
      (a = true → e = true → run_binary_tool a e (some l) = .errStdinTooLarge) := by
  have htr : pyTruthy (some l) = true := by
    cases l with
    | nil => simp at h
    | cons c t => simp [pyTruthy]
  constructor
  · cases a <;> cases e <;> simp [run_binary_tool, htr, h, spawnsProcess]
  · intro ha he
    subst ha; subst he
    simp [run_binary_tool, htr, h]

/-- Witness for C8 at a 4097-character payload. -/
theorem payload_cap_witness :
    spawnsProcess (run_binary_tool true true (some (List.replicate 4097 's'))) = false ∧
      run_binary_tool true true (some (List.replicate 4097 's')) = .errStdinTooLarge := by
  have h : 4096 < (List.replicate 4097 's').length := by
    rw [List.length_replicate]
    omega
  exact ⟨(payload_cap true true _ h).1, (payload_cap true true _ h).2 rfl rfl⟩

/-- C9: for a valid target and a non-empty payload within the cap, the data
written to the child is the normalized payload — unchanged when it already
ends in a newline, with exactly one newline appended otherwise — and the
normalization is idempotent. -/
theorem newline_discipline (a e : Bool) (l : List Char)
    (hne : l ≠ []) (hlen : l.length ≤ 4096) (ha : a = true) (he : e = true) :
    run_binary_tool a e (some l) = .spawned (some (normalize_stdin l)) ∧
      (endswith_nl l = true → normalize_stdin l = l) ∧
      (endswith_nl l = false → normalize_stdin l = l ++ ['\n']) ∧
      normalize_stdin (normalize_stdin l) = normalize_stdin l := by
  subst ha; subst he
  have htr : pyTruthy (some l) = true := by
    cases l with
    | nil => exact absurd rfl hne
    | cons c t => simp [pyTruthy]
  have hnotbig : ¬ 4096 < l.length := by omega
  refine ⟨?_, ?_, ?_, ?_⟩
  · simp [run_binary_tool, htr, hnotbig]
  · intro hend; simp [normalize_stdin, hend]
  · intro hend; simp [normalize_stdin, hend]
  · by_cases hend : endswith_nl l = true
    · simp [normalize_stdin, hend]
    · have h1 : normalize_stdin l = l ++ ['\n'] := by
        simp [normalize_stdin, hend]
      rw [h1]
      simp [normalize_stdin, endswith_nl_append_nl]

/-- Witness for C9: `"secret"` is delivered as `"secret\n"`, and
`"secret\n"` is delivered unchanged. -/
theorem newline_discipline_witness :
    run_binary_tool true true (some ("secret".toList)) =
        .spawned (some ("secret\n".toList)) ∧
      run_binary_tool true true (some ("secret\n".toList)) =
        .spawned (some ("secret\n".toList)) := by
  have h1 := newline_discipline true true ("secret".toList) (by decide) (by decide) rfl rfl
  have h2 := newline_discipline true true ("secret\n".toList) (by decide) (by decide) rfl rfl
  exact ⟨by rw [h1.1]; rfl, by rw [h2.1]; rfl⟩

/-- C10: an empty-string payload behaves exactly like supplying no payload:
`if stdin_data:` is falsy for the empty string, so the size check and the
newline append are skipped and nothing is written to the child; a valid
target spawns with nothing sent. -/
theorem empty_stdin_like_none (a e : Bool) :
    run_binary_tool a e (some []) = run_binary_tool a e none ∧
      run_binary_tool true true (some []) = .spawned none :=
  ⟨rfl, rfl⟩

/-! ## Theorems: plan state machine append discipline (claim C5) -/

/-- The seed of a left fold by `max` bounds the fold from below. -/
theorem foldl_max_le_init (xs : List Int) (a : Int) : a ≤ xs.foldl max a := by
  induction xs generalizing a with
  | nil => exact le_refl a
  | cons x t ih => exact le_trans (le_max_left a x) (ih (max a x))

/-- Every member of a list bounds its `max` fold from below. -/
theorem mem_le_foldl_max (xs : List Int) (a : Int) : ∀ x ∈ xs, x ≤ xs.foldl max a := by
  induction xs generalizing a with
  | nil => intro x hx; simp at hx
  | cons y t ih =>
    intro x hx
    rcases List.mem_cons.mp hx with h | h
    · subst h
      exact le_trans (le_max_right a x) (foldl_max_le_init t (max a x))
    · exact ih (max a y) x h

/-- `current_max_id` dominates every step id already in the plan. -/
theorem mem_le_current_max_id (plan : List PlanStep) (s : PlanStep) (hs : s ∈ plan) :
    s.step_id ≤ current_max_id plan := by
  have hmem : s.step_id ∈ plan.map (fun t => t.step_id) :=
    List.mem_map_of_mem _ hs
  rcases hxs : plan.map (fun t => t.step_id) with _ | ⟨x, xs⟩
  · rw [hxs] at hmem; simp at hmem
  · rw [hxs] at hmem
    unfold current_max_id
    rw [hxs]
    show s.step_id ≤ xs.foldl max x
    rcases List.mem_cons.mp hmem with h | h
    · rw [h]; exact foldl_max_le_init xs x
    · exact mem_le_foldl_max xs x _ h

/-- Every step produced by the append loop is pending with an id above
`maxId + i`. -/
theorem new_steps_go_mem (m : Int) :
    ∀ (i : Nat) (ds : List NewStepData), ∀ s' ∈ new_steps_go m i ds,
      s'.status = .pending ∧ m + i < s'.step_id := by
  intro i ds
  induction ds generalizing i with
  | nil => intro s' h; simp [new_steps_go] at h
  | cons d t ih =>
    intro s' h
    rcases List.mem_cons.mp h with h | h
    · subst h
      refine ⟨rfl, ?_⟩
      show m + (i : Int) < m + (i : Int) + 1
      omega
    · have hmem := ih (i + 1) s' h
      refine ⟨hmem.1, ?_⟩
      have h2 := hmem.2
      push_cast at h2 ⊢
      omega

/-- The ids produced by the append loop are strictly increasing in order. -/
theorem new_steps_go_pairwise (m : Int) :
    ∀ (i : Nat) (ds : List NewStepData),
      (new_steps_go m i ds).Pairwise (fun t u => t.step_id < u.step_id) := by
  intro i ds
  induction ds generalizing i with
  | nil => simp [new_steps_go]
  | cons d t ih =>
    simp only [new_steps_go]
    refine List.Pairwise.cons ?_ (ih (i + 1))
    intro u hu
    have h2 := (new_steps_go_mem m (i + 1) t u hu).2
    show m + (i : Int) + 1 < u.step_id
    push_cast at h2
    omega

/-- The append loop preserves the relative order and the content of the
suggested steps. -/
theorem new_steps_go_shape (m : Int) :
    ∀ (i : Nat) (ds : List NewStepData),
      (new_steps_go m i ds).map (fun s => (s.action, s.tool)) =
        ds.map (fun d => (d.action.getD "Unknown action", d.tool.getD "unknown")) := by
  intro i ds
  induction ds generalizing i with
  | nil => rfl
  | cons d t ih => simp [new_steps_go, ih (i + 1)]

/-- C5: `append_steps` appends the new steps after the existing plan,
assigns each a fresh id strictly greater than every id already in the plan,
keeps the new ids strictly increasing, preserves the relative order (and
content) of the suggested steps, marks each appended step pending, and
starts numbering at 1 on an empty plan.  Applied to any plan this covers
arbitrary sequences of `append_steps` calls, since ids appended earlier are
members of the plan of the next call. -/
theorem append_steps_spec (plan : List PlanStep) (ds : List NewStepData) :
    append_steps plan ds = plan ++ new_steps_of plan ds ∧
      (∀ s' ∈ new_steps_of plan ds, s'.status = .pending ∧
        ∀ s ∈ plan, s.step_id < s'.step_id) ∧
      (new_steps_of plan ds).Pairwise (fun t u => t.step_id < u.step_id) ∧
      (new_steps_of plan ds).map (fun s => (s.action, s.tool)) =
        ds.map (fun d => (d.action.getD "Unknown action", d.tool.getD "unknown")) ∧
      (plan = [] → (new_steps_of plan ds).head?.map (fun s => s.step_id) =
        (if ds.isEmpty then none else some 1)) := by
  refine ⟨rfl, ?_, new_steps_go_pairwise _ 0 ds, new_steps_go_shape _ 0 ds, ?_⟩
  · intro s' hs'
    have h := new_steps_go_mem (current_max_id plan) 0 ds s' hs'
    refine ⟨h.1, fun s hs => ?_⟩
    have h1 := mem_le_current_max_id plan s hs
    have h2 := h.2
    push_cast at h2
    omega
  · intro hplan
    subst hplan
    cases ds with
    | nil => rfl
    | cons d t => simp [new_steps_of, new_steps_go, current_max_id]

/-- Witness for C5: appending one suggested step to a plan whose maximum id
is 3 yields a pending step with id 4, strictly above the old id. -/
theorem append_steps_spec_witness :
    (⟨4, "test input handling", "run_binary", .pending, none⟩ : PlanStep).status =
        .pending ∧
      (⟨3, "old", "file", .completed, none⟩ : PlanStep).step_id <
        (⟨4, "test input handling", "run_binary", .pending, none⟩ : PlanStep).step_id := by
  have h := (append_steps_spec [⟨3, "old", "file", .completed, none⟩]
      [⟨some "test input handling", some "run_binary"⟩]).2.1
  have hm : (⟨4, "test input handling", "run_binary", .pending, none⟩ : PlanStep) ∈
      new_steps_of [⟨3, "old", "file", .completed, none⟩]
        [⟨some "test input handling", some "run_binary"⟩] := by decide
  exact ⟨(h _ hm).1, (h _ hm).2 _ (by decide)⟩

/-! ## Theorems: critic agent (claims C4, C7) -/

/-- The critic's fallback condition holds exactly when the plan is
non-empty with every step completed. -/
theorem all_completed_iff (plan : List PlanStep) :
    (plan.all (fun s => s.status == .completed) && !plan.isEmpty) = true ↔
      (plan ≠ [] ∧ ∀ s ∈ plan, s.status = .completed) := by
  rw [Bool.and_eq_true, List.all_eq_true]
  constructor
  · rintro ⟨h1, h2⟩
    refine ⟨?_, fun s hs => by simpa using h1 s hs⟩
    intro hnil
    subst hnil
    simp at h2
  · rintro ⟨h1, h2⟩
    refine ⟨fun s hs => by simpa using h2 s hs, ?_⟩
    cases plan with
    | nil => exact absurd rfl h1
    | cons s t => rfl

/-- C7: when the critique oracle call fails, the fallback always writes a
Termination record whose `satisfied` equals the fallback condition — so it
is set to true exactly when the plan is non-empty with every step
completed, and set to false (not merely left unset) whenever any pending or
failed step is present or the plan is empty. -/
theorem critic_fallback_termination (st : AgentState) (e : Unit) :
    (critic_agent st (.error e)).termination.map Termination.satisfied =
        some (st.current_plan.all (fun s => s.status == .completed) &&
          !st.current_plan.isEmpty) ∧
      ((st.current_plan.all (fun s => s.status == .completed) &&
          !st.current_plan.isEmpty) = true ↔
        (st.current_plan ≠ [] ∧ ∀ s ∈ st.current_plan, s.status = .completed)) := by
  refine ⟨?_, all_completed_iff st.current_plan⟩
  dsimp only [critic_agent]
  split <;> rename_i h <;> simp [h]

/-- C4 (amended): the critic overwrites the Confidence record only on the
oracle-success path — there with `understanding_level` falling back to the
prior level when the response omits it and `unanswered_questions`
defaulting to empty — while on oracle failure the fallback leaves
Confidence entirely unchanged and sets only Termination. -/
theorem critic_confidence_update (st : AgentState) :
    (∀ e : Unit, (critic_agent st (.error e)).confidence = st.confidence) ∧
      (∀ r : CriticResponse, (critic_agent st (.ok r)).confidence =
        some ⟨r.understanding_level.getD
            ((st.confidence.getD ⟨0, []⟩).understanding_level),
          r.unanswered_questions.getD []⟩) := by
  constructor
  · intro e
    dsimp only [critic_agent]
    split <;> rfl
  · intro r
    dsimp only [critic_agent]
    split <;> rfl

/-- C4 counterexample: a critique cycle whose oracle call fails does not
overwrite Confidence at all — the prior record, including its non-empty
`unanswered_questions`, survives the cycle unchanged, contradicting the
claimed unconditional wholesale overwrite. -/
theorem critic_fallback_keeps_prior_confidence :
    (critic_agent stC4 (.error ())).confidence =
        some ⟨(1 : Rat) / 2, ["what does the binary check?"]⟩ ∧
      (critic_agent stC4 (.error ())).confidence = stC4.confidence :=
  ⟨rfl, rfl⟩

/-! ## Theorems: planner agent (claim C3) -/

/-- C3 (amended): the planner regenerates the plan only when no plan exists
or every existing step has status completed; whenever the plan is non-empty
and some step is not completed — pending or failed — the phase is a no-op
returning the state unchanged.  In the regeneration case the oracle's plan
replaces the current plan. -/
theorem planner_plan_guard (st : AgentState) :
    (∀ o : Except Unit PlannerResponse,
      st.current_plan ≠ [] → (∃ s ∈ st.current_plan, s.status ≠ .completed) →
        planner_agent st o = st) ∧
      (∀ resp : PlannerResponse,
        (st.current_plan = [] ∨ ∀ s ∈ st.current_plan, s.status = .completed) →
          (planner_agent st (.ok resp)).current_plan = build_new_plan resp.plan) := by
  constructor
  · intro o hne hex
    have hguard : (!st.current_plan.isEmpty &&
        st.current_plan.any (fun s => s.status != StepStatus.completed)) = true := by
      rw [Bool.and_eq_true]
      constructor
      · cases hcp : st.current_plan with
        | nil => exact absurd hcp hne
        | cons a t => rfl
      · rw [List.any_eq_true]
        obtain ⟨s, hs, hstat⟩ := hex
        exact ⟨s, hs, by simp [hstat]⟩
    simp [planner_agent, hguard]
  · intro resp hcond
    have hguard : (!st.current_plan.isEmpty &&
        st.current_plan.any (fun s => s.status != StepStatus.completed)) = false := by
      rcases hcond with h | h
      · simp [h]
      · have hany : st.current_plan.any (fun s => s.status != StepStatus.completed) = false := by
          cases hval : st.current_plan.any (fun s => s.status != StepStatus.completed) with
          | false => rfl
          | true =>
            exfalso
            rw [List.any_eq_true] at hval
            obtain ⟨s, hs, hstat⟩ := hval
            have hdone := h s hs
            simp [hdone] at hstat
        simp [hany]
    simp only [planner_agent, hguard, Bool.false_eq_true, if_false]
    split <;> rfl

/-- C3 counterexample: a plan whose steps are all terminal but include a
failed step is not regenerated — the planner is a no-op and returns the
state unchanged, even though the oracle's response would have produced a
different plan. -/
theorem planner_noop_despite_failed_terminal_plan :
    planner_agent stC3 (.ok respC3) = stC3 ∧
      build_new_plan respC3.plan ≠ stC3.current_plan := by
  constructor
  · rfl
  · decide

/-- Witness for C3's amended theorem: the failed-step plan is preserved
under any oracle outcome, and an all-completed plan is regenerated from the
oracle's response. -/
theorem planner_plan_guard_witness :
    planner_agent stC3 (.error ()) = stC3 ∧
      (planner_agent stAllDone (.ok respC3)).current_plan = build_new_plan respC3.plan :=
  ⟨(planner_plan_guard stC3).1 (.error ()) (by decide) (by decide),
    (planner_plan_guard stAllDone).2 respC3 (Or.inr (by decide))⟩

/-! ## Theorems: executor agent (claim C6) -/

/-- When `find?` selects the first pending step, that step sits at
`first_pending_idx`, and the in-place update rewrites exactly that
position. -/
theorem find_mark_first_pending (plan : List PlanStep) (f : PlanStep → PlanStep)
    (step : PlanStep) (h : plan.find? isPending = some step) :
    plan.get? (first_pending_idx plan) = some step ∧
      (mark_first_pending plan f).get? (first_pending_idx plan) = some (f step) := by
  induction plan with
  | nil => simp [List.find?] at h
  | cons s rest ih =>
    by_cases hp : isPending s = true
    · rw [List.find?_cons_of_pos _ hp] at h
      have hs : s = step := by
        injection h
      subst hs
      constructor
      · simp [first_pending_idx, hp]
      · simp [first_pending_idx, mark_first_pending, hp]
    · rw [List.find?_cons_of_neg _ hp] at h
      obtain ⟨h1, h2⟩ := ih h
      constructor
      · simp only [first_pending_idx, hp, if_false, List.get?_cons_succ]
        exact h1
      · simp only [first_pending_idx, mark_first_pending, hp, if_false, List.get?_cons_succ]
        exact h2

/-- C6: whenever the executor selects a pending step, exactly one
`ExecutionLogEntry` is appended to the execution log and the selected
step's status becomes completed or failed — never left pending — on every
path: missing binary path, unsupported tool name, tool invocation raising,
and tool success. -/
theorem executor_logs_once_and_settles (st : AgentState)
    (tryRun : String → Except (String × ToolInput) (ToolInput × String))
    (step : PlanStep) (h : next_pending st.current_plan = some step) :
    ((executor_agent st tryRun).execution_log.getD []).length =
        (st.execution_log.getD []).length + 1 ∧
      st.current_plan.get? (first_pending_idx st.current_plan) = some step ∧
      ((executor_agent st tryRun).current_plan.get?
          (first_pending_idx st.current_plan)).map (fun s => s.step_id) =
        some step.step_id ∧
      (((executor_agent st tryRun).current_plan.get?
          (first_pending_idx st.current_plan)).map (fun s => s.status) =
          some StepStatus.completed ∨
        ((executor_agent st tryRun).current_plan.get?
          (first_pending_idx st.current_plan)).map (fun s => s.status) =
          some StepStatus.failed) := by
  have h1 := (find_mark_first_pending st.current_plan id step h).1
  cases hbp : st.binary_path with
  | none =>
    refine ⟨?_, h1, ?_, Or.inr ?_⟩
    · simp [executor_agent, h, hbp]
    · simp only [executor_agent, h, hbp]
      rw [(find_mark_first_pending st.current_plan _ step h).2]
      simp
    · simp only [executor_agent, h, hbp]
      rw [(find_mark_first_pending st.current_plan _ step h).2]
      simp
  | some bp =>
    refine ⟨?_, h1, ?_, ?_⟩
    · simp [executor_agent, h, hbp]
    · simp only [executor_agent, h, hbp]
      rw [(find_mark_first_pending st.current_plan _ step h).2]
      simp
    · cases hc : (exec_attempt bp step.tool tryRun).2.2.isSome
      · refine Or.inl ?_
        simp only [executor_agent, h, hbp, hc]
        rw [(find_mark_first_pending st.current_plan _ step h).2]
        simp
      · refine Or.inr ?_
        simp only [executor_agent, h, hbp, hc]
        rw [(find_mark_first_pending st.current_plan _ step h).2]
        simp

/-- Witness for C6 at a concrete one-pending-step state with a succeeding
file probe. -/
theorem executor_logs_once_and_settles_witness :
    ((executor_agent stC6 tryRunC6).execution_log.getD []).length =
        (stC6.execution_log.getD []).length + 1 ∧
      stC6.current_plan.get? (first_pending_idx stC6.current_plan) =
        some ⟨1, "inspect", "file", .pending, none⟩ ∧
      ((executor_agent stC6 tryRunC6).current_plan.get?
          (first_pending_idx stC6.current_plan)).map (fun s => s.step_id) =
        some (⟨1, "inspect", "file", .pending, none⟩ : PlanStep).step_id ∧
      (((executor_agent stC6 tryRunC6).current_plan.get?
          (first_pending_idx stC6.current_plan)).map (fun s => s.status) =
          some StepStatus.completed ∨
        ((executor_agent stC6 tryRunC6).current_plan.get?
          (first_pending_idx stC6.current_plan)).map (fun s => s.status) =
          some StepStatus.failed) :=
  executor_logs_once_and_settles stC6 tryRunC6 ⟨1, "inspect", "file", .pending, none⟩
    (by decide)

end RevAgent
